import Mathlib

/-!
Shallow embedding of the egui-sgr ANSI/SGR parser (src/lib.rs and
src/color_models/) in Lean 4.

Modelling conventions:
* Rust `String`/`&str` is modelled as `List Char`.
* `egui::Color32` is modelled as an RGB triple of naturals (every color the
  library constructs uses `Color32::from_rgb`, which fixes alpha to 255, so
  alpha is omitted).
* Rust `u8` values flowing through the color converters are modelled as `Nat`;
  the Rust type constrains them to `< 256`, which theorems carry as a
  hypothesis where it matters.
* `Option<Color32>` becomes `Option Color32`; parser state is passed
  explicitly.
-/

set_option maxRecDepth 4000

/-- Model of `egui::Color32` restricted to the colors this library builds:
an opaque RGB triple (`Color32::from_rgb r g b`). -/
structure Color32 where
  r : Nat
  g : Nat
  b : Nat
deriving DecidableEq

/-- `Color32::from_rgb`. -/
def Color32.from_rgb (r g b : Nat) : Color32 := ⟨r, g, b⟩

/-- `Color32::BLACK`. -/
def Color32.BLACK : Color32 := ⟨0, 0, 0⟩

/-- `Color32::RED`. -/
def Color32.RED : Color32 := ⟨255, 0, 0⟩

/-- `Color32::GREEN`. -/
def Color32.GREEN : Color32 := ⟨0, 255, 0⟩

/-- `Color32::YELLOW`. -/
def Color32.YELLOW : Color32 := ⟨255, 255, 0⟩

/-- `Color32::BLUE`. -/
def Color32.BLUE : Color32 := ⟨0, 0, 255⟩

/-- `Color32::WHITE`. -/
def Color32.WHITE : Color32 := ⟨255, 255, 255⟩

/-- The fixed 16-entry palette `COLORS` of `src/color_models/four_bit.rs`. -/
def COLORS : List Color32 :=
  [ Color32.BLACK,
    Color32.RED,
    Color32.GREEN,
    Color32.YELLOW,
    Color32.BLUE,
    Color32.from_rgb 255 0 255,
    Color32.from_rgb 0 255 255,
    Color32.from_rgb 255 255 255,
    Color32.from_rgb 128 128 128,
    Color32.from_rgb 255 128 128,
    Color32.from_rgb 128 255 128,
    Color32.from_rgb 255 255 128,
    Color32.from_rgb 128 128 255,
    Color32.from_rgb 255 128 255,
    Color32.from_rgb 128 255 255,
    Color32.WHITE ]

/-- `four_bit::ansi_color_to_egui`: palette lookup for codes below 16,
black otherwise. -/
def ansi_color_to_egui (color_code : Nat) : Color32 :=
  if color_code < 16 then COLORS.getD color_code Color32.BLACK
  else Color32.BLACK

/-- `eight_bit::ansi_256_to_egui`: the 256-color table (16 literal arms,
then the 6x6x6 cube for 16..=231, then the grayscale ramp for 232..=255). -/
def ansi_256_to_egui (color_code : Nat) : Color32 :=
  match color_code with
  | 0 => Color32.BLACK
  | 1 => Color32.RED
  | 2 => Color32.GREEN
  | 3 => Color32.YELLOW
  | 4 => Color32.BLUE
  | 5 => Color32.from_rgb 255 0 255
  | 6 => Color32.from_rgb 0 255 255
  | 7 => Color32.from_rgb 192 192 192
  | 8 => Color32.from_rgb 128 128 128
  | 9 => Color32.from_rgb 255 128 128
  | 10 => Color32.from_rgb 128 255 128
  | 11 => Color32.from_rgb 255 255 128
  | 12 => Color32.from_rgb 128 128 255
  | 13 => Color32.from_rgb 255 128 255
  | 14 => Color32.from_rgb 128 255 255
  | 15 => Color32.WHITE
  | c =>
    if c ≤ 231 then
      let code := c - 16
      let r := code / 36
      let g := (code % 36) / 6
      let b := code % 6
      let convert_component := fun x => if x = 0 then 0 else 55 + x * 40
      Color32.from_rgb (convert_component r) (convert_component g)
        (convert_component b)
    else
      let gray := if c = 255 then 248 else 8 + (c - 232) * 10
      Color32.from_rgb gray gray gray

/-- Reference definition written from the spec's own words (section 4.1,
8-bit converter, indices 16..=255 only): decompose `code - 16` into
`r = idx/36`, `g = (idx%36)/6`, `b = idx%6` and map each component `c` to
`0 if c==0 else 55 + c*40`; grayscale `8 + (code-232)*10` for 232..=254;
`code == 255` special-cased to 248. Used only to compare against the
source-derived `ansi_256_to_egui`. -/
def spec_ansi_256_ref (code : Nat) : Color32 :=
  if code ≤ 231 then
    let idx := code - 16
    let r := idx / 36
    let g := (idx % 36) / 6
    let b := idx % 6
    let conv := fun c => if c = 0 then 0 else 55 + c * 40
    Color32.from_rgb (conv r) (conv g) (conv b)
  else if code = 255 then
    Color32.from_rgb 248 248 248
  else
    let gray := 8 + (code - 232) * 10
    Color32.from_rgb gray gray gray

/-- The parser's mutable color state (`AnsiParser`'s `current_fg` /
`current_bg` fields). -/
structure SgrState where
  current_fg : Option Color32
  current_bg : Option Color32
deriving DecidableEq

/-- `AnsiParser::reset_colors`: sets both cached colors to `None`. -/
def reset_colors (_ : SgrState) : SgrState := ⟨none, none⟩

/-- `str::parse::<u8>`: an optional leading `+` followed by one or more
decimal digits whose value fits in `u8`; anything else is an error
(`none`). -/
def parseU8 (s : List Char) : Option Nat :=
  let ds := match s with
    | '+' :: rest => rest
    | _ => s
  if ds = [] then none
  else if ds.all (fun c => c.isDigit) then
    let v := ds.foldl (fun a c => a * 10 + (c.toNat - 48)) 0
    if v ≤ 255 then some v else none
  else none

/-- `str::split(';')` on the parameter string: splits on every semicolon,
keeping empty pieces (so an empty string yields one empty token, and
`"31;"` yields `["31", ""]`). -/
def splitSemi : List Char → List (List Char)
  | [] => [[]]
  | c :: rest =>
    if c = ';' then [] :: splitSemi rest
    else
      match splitSemi rest with
      | t :: ts => (c :: t) :: ts
      | [] => [[c]]

/-- The body of `AnsiParser::process_sgr_sequence`'s `while` loop over the
semicolon-split tokens. Each iteration consumes one token, except the
extended-color forms: `38;5;n` / `48;5;n` consume three tokens and
`38;2;r;g;b` / `48;2;r;g;b` consume five; truncated extended forms fall back
to consuming a single token. Empty tokens are skipped before the dispatch.

The `fuel` argument is a termination artifact of the embedding: the Rust
loop terminates because its index strictly increases every iteration, each
iteration consuming at least one token, so running the loop with one unit of
fuel per token (as `processTokens` below does) never reaches the
fuel-exhaustion branch. -/
def processTokensF : Nat → SgrState → List (List Char) → SgrState
  | 0, st, _ => st
  | _ + 1, st, [] => st
  | fuel + 1, st, c :: rest =>
    if c = [] then processTokensF fuel st rest
    else if c = ['0'] then processTokensF fuel ⟨none, none⟩ rest
    else if c = ['1'] then processTokensF fuel st rest
    else if c = ['4'] then processTokensF fuel st rest
    else if c = ['7'] then
      processTokensF fuel ⟨st.current_bg, st.current_fg⟩ rest
    else if c = ['2', '2'] then processTokensF fuel st rest
    else if c = ['2', '4'] then processTokensF fuel st rest
    else if c = ['2', '7'] then processTokensF fuel st rest
    else if c = ['3', '8'] then
      match rest with
      | t1 :: t2 :: rest2 =>
        if t1 = ['5'] then
          processTokensF fuel
            (match parseU8 t2 with
              | some n => { st with current_fg := some (ansi_256_to_egui n) }
              | none => st) rest2
        else if t1 = ['2'] then
          match rest2 with
          | t3 :: t4 :: rest4 =>
            processTokensF fuel
              (match parseU8 t2, parseU8 t3, parseU8 t4 with
                | some r, some g, some b =>
                  { st with current_fg := some (Color32.from_rgb r g b) }
                | _, _, _ => st) rest4
          | _ => processTokensF fuel st (t1 :: t2 :: rest2)
        else processTokensF fuel st (t1 :: t2 :: rest2)
      | _ => processTokensF fuel st rest
    else if c = ['4', '8'] then
      match rest with
      | t1 :: t2 :: rest2 =>
        if t1 = ['5'] then
          processTokensF fuel
            (match parseU8 t2 with
              | some n => { st with current_bg := some (ansi_256_to_egui n) }
              | none => st) rest2
        else if t1 = ['2'] then
          match rest2 with
          | t3 :: t4 :: rest4 =>
            processTokensF fuel
              (match parseU8 t2, parseU8 t3, parseU8 t4 with
                | some r, some g, some b =>
                  { st with current_bg := some (Color32.from_rgb r g b) }
                | _, _, _ => st) rest4
          | _ => processTokensF fuel st (t1 :: t2 :: rest2)
        else processTokensF fuel st (t1 :: t2 :: rest2)
      | _ => processTokensF fuel st rest
    else if c = ['3', '9'] then
      processTokensF fuel { st with current_fg := none } rest
    else if c = ['4', '9'] then
      processTokensF fuel { st with current_bg := none } rest
    else
      processTokensF fuel
        (match parseU8 c with
          | some n =>
            if 30 ≤ n ∧ n ≤ 37 then
              { st with current_fg := some (ansi_color_to_egui (n - 30)) }
            else if 40 ≤ n ∧ n ≤ 47 then
              { st with current_bg := some (ansi_color_to_egui (n - 40)) }
            else if 90 ≤ n ∧ n ≤ 97 then
              { st with current_fg := some (ansi_color_to_egui (n - 90 + 8)) }
            else if 100 ≤ n ∧ n ≤ 107 then
              { st with current_bg := some (ansi_color_to_egui (n - 100 + 8)) }
            else st
          | none => st) rest

/-- The token loop, run with one unit of fuel per token (always enough,
see `processTokensF`). -/
def processTokens (st : SgrState) (ts : List (List Char)) : SgrState :=
  processTokensF ts.length st ts

/-- `AnsiParser::process_sgr_sequence`: split the parameter string on `;`
and run the token loop. -/
def process_sgr_sequence (st : SgrState) (sequence : List Char) : SgrState :=
  processTokens st (splitSemi sequence)

/-- A text run with optional colors (`ColoredText` of src/lib.rs). -/
structure ColoredText where
  text : List Char
  foreground_color : Option Color32
  background_color : Option Color32
deriving DecidableEq

/-- Scanner position for the OSC-deleting pass: `normal` outside any match;
`sawEsc` holding one not-yet-emitted ESC seen from `normal`; `inBody` inside
the `[^\x07\x1b]*` body of a match; `sawEscB` holding an ESC seen from
`inBody` (it either completes the `ESC \` terminator, opens a new `ESC ]`
match, or is literal text left after the match that ended just before it). -/
inductive OscMode where
  | normal : OscMode
  | sawEsc : OscMode
  | inBody : OscMode
  | sawEscB : OscMode

/-- `OSC_REGEX.replace_all(input, "")`, i.e. deleting every match of
`\x1b\][^\x07\x1b]*(?:\x07|\x1b\\)?`, modelled as a character-level scan for
successive leftmost matches. A match opens at `ESC ]`, swallows body
characters other than BEL and ESC, and closes by consuming a BEL or `ESC \`
terminator; an ESC not followed by `\` ends the match just before itself
(the optional terminator group matches the empty string), and scanning for
the next match resumes at that ESC. An unterminated match swallows the rest
of the input. -/
def stripOscGo : OscMode → List Char → List Char
  | .normal, [] => []
  | .sawEsc, [] => ['\x1b']
  | .inBody, [] => []
  | .sawEscB, [] => ['\x1b']
  | .normal, c :: rest =>
    if c = '\x1b' then stripOscGo .sawEsc rest
    else c :: stripOscGo .normal rest
  | .sawEsc, c :: rest =>
    if c = ']' then stripOscGo .inBody rest
    else if c = '\x1b' then '\x1b' :: stripOscGo .sawEsc rest
    else '\x1b' :: c :: stripOscGo .normal rest
  | .inBody, c :: rest =>
    if c = '\x07' then stripOscGo .normal rest
    else if c = '\x1b' then stripOscGo .sawEscB rest
    else stripOscGo .inBody rest
  | .sawEscB, c :: rest =>
    if c = '\\' then stripOscGo .normal rest
    else if c = ']' then stripOscGo .inBody rest
    else if c = '\x1b' then '\x1b' :: stripOscGo .sawEsc rest
    else '\x1b' :: c :: stripOscGo .normal rest

/-- The character class of `OTHER_ESC_REGEX`'s second byte:
`[\x40-\x5A\x5E\x5F]` (`@`, `A`-`Z`, `^`, `_`; excluding `[` and `]`). -/
def isOtherEscByte (c : Char) : Bool :=
  (0x40 ≤ c.toNat && c.toNat ≤ 0x5A) || c.toNat = 0x5E || c.toNat = 0x5F

/-- `OTHER_ESC_REGEX.replace_all(input, "")`, i.e. deleting every match of
`\x1b[\x40-\x5A\x5E\x5F]`, modelled as a character-level scan. `sawEsc`
means an ESC has been consumed but not yet emitted: if the next character is
in the class, both are dropped; otherwise the ESC is literal text and
scanning resumes at the next character. -/
def stripOtherEscGo : Bool → List Char → List Char
  | false, [] => []
  | true, [] => ['\x1b']
  | false, c :: rest =>
    if c = '\x1b' then stripOtherEscGo true rest
    else c :: stripOtherEscGo false rest
  | true, c :: rest =>
    if isOtherEscByte c then stripOtherEscGo false rest
    else if c = '\x1b' then '\x1b' :: stripOtherEscGo true rest
    else '\x1b' :: c :: stripOtherEscGo false rest

/-- `AnsiParser::strip_non_sgr_sequences`: delete OSC matches first, then
other-escape matches. -/
def strip_non_sgr_sequences (input : List Char) : List Char :=
  stripOtherEscGo false (stripOscGo .normal input)

/-- The parameter-byte class `[0-9;]` of `CSI_REGEX`. -/
def isParamChar (c : Char) : Bool :=
  ('0' ≤ c && c ≤ '9') || c = ';'

/-- The final-byte class `[A-Za-z@]` of `CSI_REGEX`. -/
def isFinalByte (c : Char) : Bool :=
  ('A' ≤ c && c ≤ 'Z') || ('a' ≤ c && c ≤ 'z') || c = '@'

/-- The plain text accumulated since the previous CSI match, emitted as one
run with the current colors — only when non-empty (lines 198-207 and
224-233 of src/lib.rs). -/
def flushPending (st : SgrState) (pending : List Char) : List ColoredText :=
  if pending = [] then []
  else [⟨pending, st.current_fg, st.current_bg⟩]

/-- Lines 210-217 of src/lib.rs: for a CSI match with final byte `m`, empty
params mean reset, otherwise the SGR machine runs. -/
def applySgrParams (st : SgrState) (params : List Char) : SgrState :=
  if params = [] then reset_colors st
  else process_sgr_sequence st params

/-- Scanner position inside a candidate CSI match. -/
inductive ScanMode where
  | plain : ScanMode
  | sawEsc : ScanMode
  | inCsi : List Char → ScanMode

/-- The `CSI_REGEX.captures_iter` loop of `AnsiParser::parse_sgr`, modelled
as a character-level scan for successive leftmost matches of
`\x1b\[([0-9;]*)([A-Za-z@])`. `sawEsc`: an ESC has been consumed; `inCsi
params`: `ESC [` plus the parameter bytes `params` have been consumed. A
character that extends neither the parameter run nor completes the match
makes the match attempt fail; everything consumed is then literal text
(none of it can start a match, since params never contain ESC) and scanning
resumes at the offending character, which may itself be an ESC. On a
completed match the pending text is flushed with the colors in effect
before the sequence, and the state is updated only for final byte `m`. -/
def parseSgrGo (st : SgrState) (pending : List Char) (mode : ScanMode) :
    List Char → SgrState × List ColoredText
  | [] =>
    match mode with
    | .plain => (st, flushPending st pending)
    | .sawEsc => (st, flushPending st (pending ++ ['\x1b']))
    | .inCsi params =>
      (st, flushPending st (pending ++ '\x1b' :: '[' :: params))
  | c :: rest =>
    match mode with
    | .plain =>
      if c = '\x1b' then parseSgrGo st pending .sawEsc rest
      else parseSgrGo st (pending ++ [c]) .plain rest
    | .sawEsc =>
      if c = '[' then parseSgrGo st pending (.inCsi []) rest
      else if c = '\x1b' then parseSgrGo st (pending ++ ['\x1b']) .sawEsc rest
      else parseSgrGo st (pending ++ ['\x1b', c]) .plain rest
    | .inCsi params =>
      if isParamChar c then parseSgrGo st pending (.inCsi (params ++ [c])) rest
      else if isFinalByte c then
        let st1 := if c = 'm' then applySgrParams st params else st
        let out := parseSgrGo st1 [] .plain rest
        (out.1, flushPending st pending ++ out.2)
      else if c = '\x1b' then
        parseSgrGo st (pending ++ '\x1b' :: '[' :: params) .sawEsc rest
      else
        parseSgrGo st (pending ++ '\x1b' :: '[' :: params ++ [c]) .plain rest

/-- `AnsiParser::parse_sgr`: reset the colors, scan for CSI sequences, and
fall back to one uncolored run holding the whole input when the scan
produced no runs. -/
def parse_sgr (st : SgrState) (input : List Char) :
    SgrState × List ColoredText :=
  let st0 := reset_colors st
  let res := parseSgrGo st0 [] .plain input
  if res.2 = [] then (res.1, [⟨input, none, none⟩])
  else res

/-- `AnsiParser::parse`: strip non-SGR sequences, then parse SGR
sequences. -/
def AnsiParser.parse (st : SgrState) (input : List Char) :
    SgrState × List ColoredText :=
  parse_sgr st (strip_non_sgr_sequences input)

example : process_sgr_sequence ⟨none, none⟩ ['3', '1'] =
    ⟨some Color32.RED, none⟩ := by decide
example : process_sgr_sequence ⟨none, none⟩ ['3', '1', ';', '4', '2'] =
    ⟨some Color32.RED, some Color32.GREEN⟩ := by decide
example : process_sgr_sequence ⟨some Color32.RED, some Color32.GREEN⟩
    ['7'] = ⟨some Color32.GREEN, some Color32.RED⟩ := by decide
example : process_sgr_sequence ⟨none, none⟩
    ['3', '8', ';', '5', ';', '2', '0', '8'] =
    ⟨some (ansi_256_to_egui 208), none⟩ := by decide

example :
    (AnsiParser.parse ⟨none, none⟩ "\x1b[31mRed Text\x1b[0m".toList).2 =
      [⟨"Red Text".toList, some Color32.RED, none⟩] := by decide
example :
    (AnsiParser.parse ⟨none, none⟩ "".toList).2 =
      [⟨[], none, none⟩] := by decide
example :
    (AnsiParser.parse ⟨none, none⟩ "Before\x1b]0;Window Title\x07After".toList).2 =
      [⟨"BeforeAfter".toList, none, none⟩] := by decide
example :
    (AnsiParser.parse ⟨none, none⟩ "\x1b[2J\x1b[H\x1b[31mRed\x1b[0m".toList).2 =
      [⟨"Red".toList, some Color32.RED, none⟩] := by decide
example :
    (AnsiParser.parse ⟨none, none⟩ "\x1b[31mRed\x1b[mDefault".toList).2 =
      [⟨"Red".toList, some Color32.RED, none⟩, ⟨"Default".toList, none, none⟩] := by
  decide
example :
    (AnsiParser.parse ⟨none, none⟩ "\x1b[38;2;255;0;0mRed\x1b[0m".toList).2 =
      [⟨"Red".toList, some (Color32.from_rgb 255 0 0), none⟩] := by decide

/-- The fuel of `processTokensF` is irrelevant once it covers the token
count: any two sufficient fuels give the same result, so `processTokens`
(fuel = token count) computes the limit of the Rust loop and the
fuel-exhaustion branch is unreachable. -/
theorem processTokensF_fuel_irrelevant :
    ∀ (f : Nat) (st : SgrState) (ts : List (List Char)) (g : Nat),
      ts.length ≤ f → ts.length ≤ g →
      processTokensF f st ts = processTokensF g st ts := by
  intro f st ts
  induction f, st, ts using processTokensF.induct
  all_goals intro g h1 h2
  case case1 st ts =>
    have hts : ts = [] := List.eq_nil_of_length_eq_zero (Nat.le_zero.mp h1)
    subst hts
    cases g <;> rfl
  case case2 n st =>
    cases g <;> rfl
  all_goals obtain ⟨g', rfl⟩ : ∃ g', g = g' + 1 :=
    ⟨g - 1, by simp at h2; omega⟩
  all_goals simp only [processTokensF, reduceIte, *]
  all_goals apply_assumption <;> (simp at h1 h2 ⊢) <;> omega

/-- Any sufficient fuel computes `processTokens`. -/
theorem processTokensF_eq_processTokens (f : Nat) (st : SgrState)
    (ts : List (List Char)) (h : ts.length ≤ f) :
    processTokensF f st ts = processTokens st ts :=
  processTokensF_fuel_irrelevant f st ts ts.length h (Nat.le_refl _)

/-- Runs emitted by `flushPending` always carry non-empty text. -/
theorem flushPending_mem_ne_nil {st : SgrState} {p : List Char}
    {r : ColoredText} (hr : r ∈ flushPending st p) : r.text ≠ [] := by
  unfold flushPending at hr
  split at hr
  · simp at hr
  · rename_i hp
    simp at hr
    subst hr
    exact hp

/-- Every run produced by the CSI scanning loop has non-empty text (the
fallback run of `parse_sgr` is the only other source of runs). -/
theorem parseSgrGo_text_ne_nil :
    ∀ (l : List Char) (st : SgrState) (pending : List Char) (mode : ScanMode)
      (r : ColoredText), r ∈ (parseSgrGo st pending mode l).2 → r.text ≠ [] := by
  intro l
  induction l with
  | nil =>
    intro st pending mode r hr
    cases mode <;> exact flushPending_mem_ne_nil (by simpa [parseSgrGo] using hr)
  | cons c rest ih =>
    intro st pending mode r hr
    cases mode with
    | plain =>
      by_cases hc : c = '\x1b' <;> simp only [parseSgrGo, hc, if_true, if_false,
        reduceIte] at hr
      · exact ih _ _ _ _ hr
      · exact ih _ _ _ _ hr
    | sawEsc =>
      by_cases h1 : c = '['
      · simp only [parseSgrGo, h1, reduceIte] at hr
        exact ih _ _ _ _ hr
      · by_cases h2 : c = '\x1b' <;>
          simp only [parseSgrGo, h1, h2, reduceIte] at hr
        · exact ih _ _ _ _ hr
        · exact ih _ _ _ _ hr
    | inCsi params =>
      by_cases hp : isParamChar c
      · simp only [parseSgrGo, hp, reduceIte] at hr
        exact ih _ _ _ _ hr
      · by_cases hf : isFinalByte c
        · simp only [parseSgrGo, hp, hf, reduceIte] at hr
          rcases List.mem_append.mp hr with h | h
          · exact flushPending_mem_ne_nil h
          · exact ih _ _ _ _ h
        · by_cases he : c = '\x1b' <;>
            simp only [parseSgrGo, hp, hf, he, reduceIte] at hr
          · exact ih _ _ _ _ hr
          · exact ih _ _ _ _ hr

/-- The OSC-deleting pass leaves inputs without an actual escape byte
untouched. -/
theorem stripOscGo_no_esc :
    ∀ l : List Char, '\x1b' ∉ l → stripOscGo .normal l = l := by
  intro l
  induction l with
  | nil => intro _; rfl
  | cons c rest ih =>
    intro h
    simp only [List.mem_cons, not_or] at h
    obtain ⟨h1, h2⟩ := h
    have hc : ¬ c = '\x1b' := fun e => h1 e.symm
    simp only [stripOscGo, hc, reduceIte]
    exact congrArg _ (ih h2)

/-- The other-escape-deleting pass leaves inputs without an actual escape
byte untouched. -/
theorem stripOtherEscGo_no_esc :
    ∀ l : List Char, '\x1b' ∉ l → stripOtherEscGo false l = l := by
  intro l
  induction l with
  | nil => intro _; rfl
  | cons c rest ih =>
    intro h
    simp only [List.mem_cons, not_or] at h
    obtain ⟨h1, h2⟩ := h
    have hc : ¬ c = '\x1b' := fun e => h1 e.symm
    simp only [stripOtherEscGo, hc, reduceIte]
    exact congrArg _ (ih h2)

/-- `strip_non_sgr_sequences` leaves inputs without an actual escape byte
untouched. -/
theorem strip_non_sgr_no_esc (l : List Char) (h : '\x1b' ∉ l) :
    strip_non_sgr_sequences l = l := by
  unfold strip_non_sgr_sequences
  rw [stripOscGo_no_esc l h, stripOtherEscGo_no_esc l h]

/-- Without an escape byte the CSI scan finds no match: everything joins the
pending text. -/
theorem parseSgrGo_no_esc :
    ∀ (l : List Char), '\x1b' ∉ l → ∀ (st : SgrState) (pending : List Char),
      parseSgrGo st pending .plain l = (st, flushPending st (pending ++ l)) := by
  intro l
  induction l with
  | nil => intro _ st pending; simp [parseSgrGo]
  | cons c rest ih =>
    intro h st pending
    simp only [List.mem_cons, not_or] at h
    obtain ⟨h1, h2⟩ := h
    have hc : ¬ c = '\x1b' := fun e => h1 e.symm
    simp only [parseSgrGo, hc, reduceIte]
    rw [ih h2]
    simp

/-- C1 (code-path evaluation at the failing input): for the input
`"\x1b[31m"`, which consists of exactly one recognized CSI escape sequence,
`parse` returns one run whose text is the raw escape bytes themselves, so
the concatenation of run texts is `"\x1b[31m"` and not the empty string
that removing the recognized escape sequence would leave. The `parse_sgr`
fallback `if result.is_empty()` (commented "If no escape sequences were
found") also fires when escape sequences were found and consumed the whole
input. -/
theorem c1_all_escape_input_echoed_verbatim :
    "\x1b[31m".toList ≠ [] ∧
    (AnsiParser.parse ⟨none, none⟩ "\x1b[31m".toList).2 =
      [⟨"\x1b[31m".toList, none, none⟩] ∧
    ((AnsiParser.parse ⟨none, none⟩ "\x1b[31m".toList).2.map
        (fun r => r.text)).flatten = "\x1b[31m".toList := by
  decide

/-- C2 (counterexample): the non-empty input `"\x1bA"` — a single
other-escape sequence, stripped before SGR parsing — produces exactly one
run with empty text, contradicting the claim that only the empty input
does. -/
theorem c2_nonempty_input_empty_run :
    "\x1bA".toList ≠ [] ∧
    (AnsiParser.parse ⟨none, none⟩ "\x1bA".toList).2 =
      [⟨[], none, none⟩] := by
  decide

/-- C2 (amended): no returned run has empty text, except that when the
input with OSC and other-escape sequences stripped is empty (in particular
for the empty input) `parse` returns exactly one run with empty text and no
colors. -/
theorem c2_no_empty_runs_unless_stripped_empty :
    ∀ (st : SgrState) (input : List Char),
      (strip_non_sgr_sequences input ≠ [] →
        ∀ r ∈ (AnsiParser.parse st input).2, r.text ≠ []) ∧
      (strip_non_sgr_sequences input = [] →
        (AnsiParser.parse st input).2 = [⟨[], none, none⟩]) := by
  intro st input
  constructor
  · intro hne r hr
    simp only [AnsiParser.parse, parse_sgr] at hr
    split at hr
    · simp at hr
      subst hr
      exact hne
    · exact parseSgrGo_text_ne_nil _ _ _ _ _ hr
  · intro he
    simp only [AnsiParser.parse, parse_sgr, he]
    rfl

/-- C2 witness: the amended statement instantiated at the OSC-only input
`"\x1b]0;T\x07"`, whose stripped form is empty. -/
theorem c2_no_empty_runs_witness :
    (AnsiParser.parse ⟨none, none⟩ "\x1b]0;T\x07".toList).2 =
      [⟨[], none, none⟩] :=
  (c2_no_empty_runs_unless_stripped_empty ⟨none, none⟩ _).2 (by decide)

/-- C6: an input containing no actual escape byte (0x1b) — such as a
textual backslash-escaped representation of an escape sequence — parses to
exactly one run equal to the input unchanged, with no foreground or
background color. -/
theorem c6_no_escape_byte_passthrough :
    ∀ (st : SgrState) (input : List Char), '\x1b' ∉ input →
      (AnsiParser.parse st input).2 = [⟨input, none, none⟩] := by
  intro st input h
  simp only [AnsiParser.parse, parse_sgr, strip_non_sgr_no_esc input h,
    parseSgrGo_no_esc input h]
  cases input with
  | nil => simp [flushPending]
  | cons c rest => simp [flushPending, reset_colors]

/-- C6 witness: the six-character textual form `\x1b[31m` (backslash, x, 1,
b, and so on) passes through verbatim and uncolored. -/
theorem c6_no_escape_byte_passthrough_witness :
    (AnsiParser.parse ⟨none, none⟩ "\\x1b[31mRed\\x1b[0m".toList).2 =
      [⟨"\\x1b[31mRed\\x1b[0m".toList, none, none⟩] :=
  c6_no_escape_byte_passthrough ⟨none, none⟩ _ (by decide)

/-- C4 (counterexample): the 8-bit and 4-bit converters disagree at index 7:
`ansi_256_to_egui 7` is the "slightly darker" white `(192,192,192)` while
`ansi_color_to_egui 7` is `(255,255,255)`, so the first 16 entries of the
256-color table are not all equal to the 4-bit palette. -/
theorem c4_palettes_disagree_at_seven :
    ansi_256_to_egui 7 = Color32.from_rgb 192 192 192 ∧
    ansi_color_to_egui 7 = Color32.from_rgb 255 255 255 ∧
    ansi_256_to_egui 7 ≠ ansi_color_to_egui 7 := by
  decide

/-- C4 (amended): for every index `n` in `0..=15` other than 7, the 8-bit
converter agrees with the 4-bit converter:
`ansi_256_to_egui n = ansi_color_to_egui n`. -/
theorem c4_palettes_agree_except_seven :
    ∀ n : Nat, n < 16 → n ≠ 7 → ansi_256_to_egui n = ansi_color_to_egui n := by
  decide

/-- C4 witness: concrete instantiation of the amended agreement at index 3. -/
theorem c4_palettes_agree_witness :
    ansi_256_to_egui 3 = ansi_color_to_egui 3 :=
  c4_palettes_agree_except_seven 3 (by decide) (by decide)

/-- C5: over the whole range 16..=255 the 8-bit converter
`ansi_256_to_egui` equals the spec's reference definition
`spec_ansi_256_ref` (RGB cube for 16..=231, grayscale ramp for 232..=254,
special-cased 248 at 255). -/
theorem c5_eight_bit_matches_spec_reference :
    ∀ c : Nat, c < 256 → 16 ≤ c → ansi_256_to_egui c = spec_ansi_256_ref c := by
  decide

/-- C5 witness: concrete instantiation at index 196, where both sides are
pure red `(255,0,0)`. -/
theorem c5_eight_bit_matches_spec_reference_witness :
    ansi_256_to_egui 196 = spec_ansi_256_ref 196 ∧
    ansi_256_to_egui 196 = Color32.from_rgb 255 0 0 :=
  ⟨c5_eight_bit_matches_spec_reference 196 (by decide) (by decide), by decide⟩

/-- C10: the 4-bit converter is total over the `u8` domain: every code at or
above 16 yields `Color32::BLACK`, and every code below 16 is a strictly
in-bounds index into the 16-entry palette, returned as that palette entry. -/
theorem c10_four_bit_total :
    ∀ c : Nat, c < 256 →
      (16 ≤ c → ansi_color_to_egui c = Color32.BLACK) ∧
      (c < 16 → c < COLORS.length ∧
        ansi_color_to_egui c = COLORS.getD c Color32.BLACK) := by
  decide

/-- C10 witness: concrete instantiations at codes 200 (out of palette range,
black) and 9 (in range, bright red palette entry). -/
theorem c10_four_bit_total_witness :
    ansi_color_to_egui 200 = Color32.BLACK ∧
    (9 < COLORS.length ∧ ansi_color_to_egui 9 = COLORS.getD 9 Color32.BLACK) :=
  ⟨(c10_four_bit_total 200 (by decide)).1 (by decide),
   (c10_four_bit_total 9 (by decide)).2 (by decide)⟩

/-- C3 (counterexample): after processing the parameter string `"31;"` the
foreground is red, not none — the trailing empty token is not treated as a
reset. -/
theorem c3_trailing_empty_token_not_reset :
    process_sgr_sequence ⟨none, none⟩ "31;".toList =
      ⟨some Color32.RED, none⟩ ∧
    (some Color32.RED : Option Color32) ≠ none := by
  decide

/-- C3 (amended): inside the SGR token loop every empty parameter token is
skipped with no effect on the color state (it is not treated as code 0);
only a wholly empty parameter string acts as a reset, and that happens in
`parse_sgr` (`applySgrParams`) before the token loop runs. Consequently
`"31;"` leaves the foreground red. -/
theorem c3_empty_tokens_are_skipped :
    (∀ (st : SgrState) (rest : List (List Char)),
      processTokens st ([] :: rest) = processTokens st rest) ∧
    (∀ st : SgrState, applySgrParams st [] = ⟨none, none⟩) ∧
    process_sgr_sequence ⟨none, none⟩ "31;".toList =
      ⟨some Color32.RED, none⟩ :=
  ⟨fun _ _ => rfl, fun _ => rfl, by decide⟩

/-- C7: the run list returned by `parse` does not depend on the parser state
left over from earlier calls — the state is reset to `{None, None}` at the
start of every call, so any two starting states give the same runs. -/
theorem c7_parse_independent_of_prior_state :
    ∀ (s1 s2 : SgrState) (input : List Char),
      (AnsiParser.parse s1 input).2 = (AnsiParser.parse s2 input).2 :=
  fun _ _ _ => rfl

/-- C8: SGR code 7 swaps the current foreground and background in place for
every state, and parsing `"\x1b[31;42mA\x1b[7mB"` yields run "A" with red
foreground and green background followed by run "B" with those colors
swapped. -/
theorem c8_reverse_video_swaps :
    (∀ st : SgrState,
      process_sgr_sequence st ['7'] = ⟨st.current_bg, st.current_fg⟩) ∧
    (AnsiParser.parse ⟨none, none⟩ "\x1b[31;42mA\x1b[7mB".toList).2 =
      [⟨"A".toList, some Color32.RED, some Color32.GREEN⟩,
       ⟨"B".toList, some Color32.GREEN, some Color32.RED⟩] :=
  ⟨fun _ => rfl, by decide⟩

/-- C9: the truncated extended-color parameter string `"38;5"` (as in
`\x1b[38;5m`) is a total no-op on every color state, and a full parse
containing `\x1b[38;5m` returns normally with the color state (here red
from an earlier `31`) unchanged across the malformed sequence. -/
theorem c9_truncated_extended_color_noop :
    (∀ st : SgrState, process_sgr_sequence st "38;5".toList = st) ∧
    (AnsiParser.parse ⟨none, none⟩ "\x1b[31mA\x1b[38;5mB".toList).2 =
      [⟨"A".toList, some Color32.RED, none⟩,
       ⟨"B".toList, some Color32.RED, none⟩] :=
  ⟨fun _ => rfl, by decide⟩
